import Mathlib

/-!
Verification of the autotrack vehicle/document tracking service.

The service is a set of Hono HTTP handlers (`index.tsx`) over a key-value
record store and a blob store.  This file gives a shallow embedding of the
data model and the handlers, and proves the behavioural properties stated
in the specification.

Modelling conventions:
* JSON values are the inductive `Val`; JavaScript objects are association
  lists `List (String × Val)`; object spread / property assignment is
  `objSet` (replace the first binding in place, else append — exactly the
  key semantics of JS object literals).
* Date strings are modelled by their epoch-millisecond value, `Option Int`;
  `none` models the empty string `""`.  Non-empty unparseable date strings
  are outside the model.
* The record store (`kv_store.tsx`, not part of the included sources) is
  modelled from the spec: a map from string key to value supporting get,
  set, delete, and scan-by-key-start returning all matching values.
* The identity adapter (external auth provider) is an abstract function
  `auth : String → Option String` from bearer token to user id.
* The blob store adapter is an abstract upload function
  `String → List String → Option (List String)` (`none` = failed write)
  together with a signed-URL function `String → Option String`.
-/

/-- Compliance status of an item, from the client source (`VehicleForm`). -/
inductive Status where
  | valid
  | warning
  | expired
  deriving DecidableEq

/-- One JS "month" in milliseconds: `1000 * 60 * 60 * 24 * 30`. -/
def monthMs : Int := 1000 * 60 * 60 * 24 * 30

/-- `getStatusFromDate`, from `VehicleForm` (identical in both copies of the
component).  The source computes
`diffMonths = (date.getTime() - now.getTime()) / (1000*60*60*24*30)` and
tests `diffMonths < 0` and `diffMonths < 2`; over integer millisecond
timestamps these tests are exactly `t - now < 0` and `t - now < 2 * monthMs`
(the real-number division by the positive constant preserves both strict
comparisons, and the float rounding error of the quotient is far below the
distance of any integer quotient to the thresholds). -/
def getStatusFromDate (date : Option Int) (now : Int) : Status :=
  match date with
  | none => .expired
  | some t =>
    if t - now < 0 then .expired
    else if t - now < 2 * monthMs then .warning
    else .valid

/-- JSON values as stored in the record store and exchanged with clients. -/
inductive Val where
  | vnull
  | vstr (s : String)
  | vnum (n : Int)
  | vobj (fields : List (String × Val))
  | varr (elems : List Val)

/-- Property read on a JS object: value of the first binding of `k`. -/
def objGet : List (String × Val) → String → Option Val
  | [], _ => none
  | e :: rest, k => if e.1 = k then some e.2 else objGet rest k

/-- Property write on a JS object: replace the binding of `k` in place if
present, else append it — the key semantics of JS object literals. -/
def objSet : List (String × Val) → String → Val → List (String × Val)
  | [], k, v => [(k, v)]
  | e :: rest, k, v => if e.1 = k then (k, v) :: rest else e :: objSet rest k v

/-- Object spread `{...base, ...payload}`: assign every binding of
`payload`, in order, onto `base`. -/
def spreadAll (base payload : List (String × Val)) : List (String × Val) :=
  payload.foldl (fun o e => objSet o e.1 e.2) base

/-- Last binding of `k` in a binding list (the binding that survives a
spread of the list onto an object). -/
def lookupLast : List (String × Val) → String → Option Val
  | [], _ => none
  | e :: rest, k =>
    match lookupLast rest k with
    | some v => some v
    | none => if e.1 = k then some e.2 else none

/-- Fields of a `Val` that is an object (spreading a non-object contributes
no string-keyed properties). -/
def objFields : Val → List (String × Val)
  | .vobj fs => fs
  | _ => []

/-- `startsList p l`: the character list `p` is a leading run of `l`. -/
def startsList : List Char → List Char → Bool
  | [], _ => true
  | _ :: _, [] => false
  | a :: p, b :: l => if a = b then startsList p l else false

/-- String key matching used by the record-store scan. -/
def strStarts (p s : String) : Bool := startsList p.data s.data

/-- Modelled from the spec: record-store `get` (`kv_store.tsx` is not in
the included sources; the spec describes a map from string key to value). -/
def kvGet (k : String) : List (String × Val) → Option Val
  | [] => none
  | e :: rest => if e.1 = k then some e.2 else kvGet k rest

/-- Modelled from the spec: record-store `set` (upsert by key). -/
def kvSet (k : String) (v : Val) : List (String × Val) → List (String × Val)
  | [] => [(k, v)]
  | e :: rest => if e.1 = k then (k, v) :: rest else e :: kvSet k v rest

/-- Modelled from the spec: record-store `del`. -/
def kvDel (k : String) (st : List (String × Val)) : List (String × Val) :=
  st.filter (fun e => !(e.1 == k))

/-- Modelled from the spec: record-store scan returning the values of all
entries whose key starts with `p`, in store order (the spec promises no
particular order). -/
def getByPre (p : String) (st : List (String × Val)) : List Val :=
  (st.filter (fun e => strStarts p e.1)).map (fun e => e.2)

/-- Key layout `vehicle_<userId>_` used by the vehicle endpoints. -/
def vehiclePre (uid : String) : String := "vehicle_" ++ uid ++ "_"

/-- Storage key `vehicle_<userId>_<vehicleId>`. -/
def vehicleKey (uid vid : String) : String := vehiclePre uid ++ vid

/-- Key layout `document_<userId>_<vehicleId>_` used by `GET .../documents`. -/
def docPre (uid vid : String) : String := "document_" ++ uid ++ "_" ++ vid ++ "_"

/-- Storage key `document_<userId>_<vehicleId>_<documentId>`. -/
def docKey (uid vid did : String) : String := docPre uid vid ++ did

/-- Key layout `document_<userId>_` used by the signed-URL lookup scan. -/
def userDocsPre (uid : String) : String := "document_" ++ uid ++ "_"

/-- Storage key `user_profile_<userId>`. -/
def profileKey (uid : String) : String := "user_profile_" ++ uid

/-- The vehicle object built by `POST /vehicles`:
`{ id, userId, ...vehicleData, createdAt, updatedAt }`.
`vid` is the server-generated id, `now` the ISO timestamp string. -/
def vehicleRecord (uid vid now : String) (payload : List (String × Val)) :
    List (String × Val) :=
  objSet
    (objSet
      (spreadAll (objSet (objSet [] "id" (.vstr vid)) "userId" (.vstr uid)) payload)
      "createdAt" (.vstr now))
    "updatedAt" (.vstr now)

/-- Store effect of `POST /vehicles`: persist the vehicle record under
`vehicle_<userId>_<vehicleId>`. -/
def createVehicleCore (uid vid now : String) (payload : List (String × Val))
    (kv : List (String × Val)) : List (String × Val) :=
  kvSet (vehicleKey uid vid) (.vobj (vehicleRecord uid vid now payload)) kv

/-- The merged vehicle built by `PUT /vehicles/:vehicleId`:
`{ ...existingVehicle, ...vehicleData, updatedAt }`. -/
def mergeVehicle (old payload : List (String × Val)) (now : String) :
    List (String × Val) :=
  objSet (spreadAll old payload) "updatedAt" (.vstr now)

/-- `GET /vehicles` result: scan of the caller's vehicle keys. -/
def listVehiclesFn (uid : String) (kv : List (String × Val)) : List Val :=
  getByPre (vehiclePre uid) kv

/-- `GET /vehicles/:vehicleId/documents` result: scan of the caller's
document keys for that vehicle. -/
def listDocumentsFn (uid vid : String) (kv : List (String × Val)) : List Val :=
  getByPre (docPre uid vid) kv

/-- The metadata-only document object built by `POST .../documents`:
`{ id, userId, vehicleId, ...documentData, createdAt, updatedAt }`. -/
def documentMetaRecord (uid vid did now : String)
    (payload : List (String × Val)) : List (String × Val) :=
  objSet
    (objSet
      (spreadAll
        (objSet (objSet (objSet [] "id" (.vstr did)) "userId" (.vstr uid))
          "vehicleId" (.vstr vid))
        payload)
      "createdAt" (.vstr now))
    "updatedAt" (.vstr now)

/-- Multipart file part of an upload request. -/
structure FileInfo where
  name : String
  ftype : String
  size : Int
  deriving DecidableEq

/-- `file.name.split('.').pop()`: the last dot-separated segment of the
file name (the whole name when it has no dot). -/
def lastSeg : List Char → List Char → List Char
  | acc, [] => acc
  | acc, c :: rest => if c = '.' then lastSeg [] rest else lastSeg (acc ++ [c]) rest

/-- File extension as computed by the upload handler. -/
def fileExt (name : String) : String := ⟨lastSeg [] name.data⟩

/-- Blob path `<userId>/<vehicleId>/<documentId>.<ext>` of the effective
upload handler. -/
def uploadPath (uid vid did fname : String) : String :=
  uid ++ "/" ++ vid ++ "/" ++ did ++ "." ++ fileExt fname

/-- The document object built by the effective upload handler:
`{ id, userId, vehicleId, ...documentData, fileName, fileType, fileSize,
filePath, fileUrl, createdAt, updatedAt }`. -/
def uploadDocRecord (uid vid did now : String) (f : FileInfo) (path : String)
    (url : Option String) (documentData : List (String × Val)) :
    List (String × Val) :=
  objSet
    (objSet
      (objSet
        (objSet
          (objSet
            (objSet
              (objSet
                (spreadAll
                  (objSet (objSet (objSet [] "id" (.vstr did)) "userId" (.vstr uid))
                    "vehicleId" (.vstr vid))
                  documentData)
                "fileName" (.vstr f.name))
              "fileType" (.vstr f.ftype))
            "fileSize" (.vnum f.size))
          "filePath" (.vstr path))
        "fileUrl" (match url with | some u => .vstr u | none => .vnull))
      "createdAt" (.vstr now))
    "updatedAt" (.vstr now)

/-- A record-store or blob-store operation performed by a handler. -/
inductive Op where
  | get (k : String)
  | set (k : String)
  | del (k : String)
  | scan (p : String)
  | blobWrite (p : String)
  | blobSign (p : String)
  deriving DecidableEq

/-- Combined store state: record store and the set of blob paths written. -/
structure St where
  kv : List (String × Val)
  blobs : List String

/-- Result of a handler: HTTP status, resulting store state, and the store
operations performed, in order. -/
structure HRes where
  status : Nat
  st : St
  ops : List Op

/-- The authentication prelude shared by every user-scoped handler except
`GET /profile`:
`if (!accessToken || accessToken === ANON_KEY) return 401;` then
`supabase.auth.getUser(accessToken)` with 401 on error/no user. -/
def guardAuth (token : Option String) (anonKey : String)
    (auth : String → Option String) (st : St) (body : String → HRes) : HRes :=
  match token with
  | none => ⟨401, st, []⟩
  | some t =>
    if t = anonKey then ⟨401, st, []⟩
    else
      match auth t with
      | none => ⟨401, st, []⟩
      | some uid => body uid

/-- `GET /profile`: checks only that a token is present, then verifies it
with the identity adapter; reads the profile overlay record on success.
Note there is no explicit anon-key equality test in this handler. -/
def profileGetH (token : Option String) (auth : String → Option String)
    (st : St) : HRes :=
  match token with
  | none => ⟨401, st, []⟩
  | some t =>
    match auth t with
    | none => ⟨401, st, []⟩
    | some uid => ⟨200, st, [.get (profileKey uid)]⟩

/-- `GET /vehicles`. -/
def listVehiclesH (token : Option String) (anonKey : String)
    (auth : String → Option String) (st : St) : HRes :=
  guardAuth token anonKey auth st fun uid =>
    ⟨200, st, [.scan (vehiclePre uid)]⟩

/-- `POST /vehicles` (`vid`/`now` are the server-generated id and clock). -/
def createVehicleH (token : Option String) (anonKey : String)
    (auth : String → Option String) (vid now : String)
    (payload : List (String × Val)) (st : St) : HRes :=
  guardAuth token anonKey auth st fun uid =>
    ⟨200, ⟨createVehicleCore uid vid now payload st.kv, st.blobs⟩,
      [.set (vehicleKey uid vid)]⟩

/-- `PUT /vehicles/:vehicleId`. -/
def updateVehicleH (token : Option String) (anonKey : String)
    (auth : String → Option String) (vid now : String)
    (payload : List (String × Val)) (st : St) : HRes :=
  guardAuth token anonKey auth st fun uid =>
    match kvGet (vehicleKey uid vid) st.kv with
    | none => ⟨404, st, [.get (vehicleKey uid vid)]⟩
    | some old =>
      ⟨200,
        ⟨kvSet (vehicleKey uid vid)
          (.vobj (mergeVehicle (objFields old) payload now)) st.kv, st.blobs⟩,
        [.get (vehicleKey uid vid), .set (vehicleKey uid vid)]⟩

/-- `DELETE /vehicles/:vehicleId`. -/
def deleteVehicleH (token : Option String) (anonKey : String)
    (auth : String → Option String) (vid : String) (st : St) : HRes :=
  guardAuth token anonKey auth st fun uid =>
    match kvGet (vehicleKey uid vid) st.kv with
    | none => ⟨404, st, [.get (vehicleKey uid vid)]⟩
    | some _ =>
      ⟨200, ⟨kvDel (vehicleKey uid vid) st.kv, st.blobs⟩,
        [.get (vehicleKey uid vid), .del (vehicleKey uid vid)]⟩

/-- `GET /vehicles/:vehicleId/documents`. -/
def listDocumentsH (token : Option String) (anonKey : String)
    (auth : String → Option String) (vid : String) (st : St) : HRes :=
  guardAuth token anonKey auth st fun uid =>
    ⟨200, st, [.scan (docPre uid vid)]⟩

/-- `POST /vehicles/:vehicleId/documents` (metadata-only document). -/
def addDocumentH (token : Option String) (anonKey : String)
    (auth : String → Option String) (vid did now : String)
    (payload : List (String × Val)) (st : St) : HRes :=
  guardAuth token anonKey auth st fun uid =>
    ⟨200,
      ⟨kvSet (docKey uid vid did) (.vobj (documentMetaRecord uid vid did now payload)) st.kv,
        st.blobs⟩,
      [.set (docKey uid vid did)]⟩

/-- `POST /vehicles/:vehicleId/documents/upload` — the FIRST registration of
this route, the one the router dispatches to.  It parses the form, rejects
a missing file with 400, uploads the blob (500 on failure, before any
record write), then persists the document metadata.  It performs NO lookup
of the vehicle record. -/
def uploadDocumentH (token : Option String) (anonKey : String)
    (auth : String → Option String) (vid did now : String)
    (file : Option FileInfo) (documentData : List (String × Val))
    (blobUp : String → List String → Option (List String))
    (sign : String → Option String) (st : St) : HRes :=
  guardAuth token anonKey auth st fun uid =>
    match file with
    | none => ⟨400, st, []⟩
    | some f =>
      let path := uploadPath uid vid did f.name
      match blobUp path st.blobs with
      | none => ⟨500, st, [.blobWrite path]⟩
      | some blobs2 =>
        ⟨200,
          ⟨kvSet (docKey uid vid did)
            (.vobj (uploadDocRecord uid vid did now f path (sign path) documentData))
            st.kv, blobs2⟩,
          [.blobWrite path, .blobSign path, .set (docKey uid vid did)]⟩

/-- Reads a property of an object-valued `Val`. -/
def objGetV (v : Val) (k : String) : Option Val := objGet (objFields v) k

/-- `doc.id === documentId` test of the signed-URL handler. -/
def docIdIs (did : String) (d : Val) : Bool :=
  match objGetV d "id" with
  | some (.vstr s) => s == did
  | _ => false

/-- `GET /documents/:documentId/url` — first registration: scans all of the
caller's documents, finds the one with the requested id, 404 when absent or
without a truthy `filePath`, then requests a signed URL (500 on failure). -/
def docUrlH (token : Option String) (anonKey : String)
    (auth : String → Option String) (did : String)
    (sign : String → Option String) (st : St) : HRes :=
  guardAuth token anonKey auth st fun uid =>
    let docs := getByPre (userDocsPre uid) st.kv
    match docs.find? (docIdIs did) with
    | none => ⟨404, st, [.scan (userDocsPre uid)]⟩
    | some d =>
      match objGetV d "filePath" with
      | some (.vstr p) =>
        if p = "" then ⟨404, st, [.scan (userDocsPre uid)]⟩
        else
          match sign p with
          | none => ⟨500, st, [.scan (userDocsPre uid), .blobSign p]⟩
          | some _ => ⟨200, st, [.scan (userDocsPre uid), .blobSign p]⟩
      | _ => ⟨404, st, [.scan (userDocsPre uid)]⟩

/-- `PUT /profile`: updates identity-provider metadata (`idOk` models that
external call), then writes `{ ...profileData, updatedAt }` to the profile
overlay record. -/
def profilePutH (token : Option String) (anonKey : String)
    (auth : String → Option String) (now : String)
    (payload : List (String × Val)) (idOk : Bool) (st : St) : HRes :=
  guardAuth token anonKey auth st fun uid =>
    if idOk then
      ⟨200,
        ⟨kvSet (profileKey uid)
          (.vobj (objSet (spreadAll [] payload) "updatedAt" (.vstr now))) st.kv,
          st.blobs⟩,
        [.set (profileKey uid)]⟩
    else ⟨500, st, []⟩

/-- `GET /history`: scans the caller's vehicles and documents.  The feed it
computes from the scan results is modelled by `buildHistory` below. -/
def historyH (token : Option String) (anonKey : String)
    (auth : String → Option String) (st : St) : HRes :=
  guardAuth token anonKey auth st fun uid =>
    ⟨200, st, [.scan (vehiclePre uid), .scan (userDocsPre uid)]⟩

/-- `GET /stats`: scans the caller's vehicles and documents.  The counters
it computes from the scan results are modelled by `computeStats` below. -/
def statsH (token : Option String) (anonKey : String)
    (auth : String → Option String) (st : St) : HRes :=
  guardAuth token anonKey auth st fun uid =>
    ⟨200, st, [.scan (vehiclePre uid), .scan (userDocsPre uid)]⟩

/-- A compliance item (`insurance` / `inspection` / `taxes`) as consumed by
the history and stats handlers.  `date` is the expiry date
(epoch milliseconds, `none` = empty string); `status` is whatever status
string the record carries, if any. -/
structure ComplianceItem where
  date : Option Int
  status : Option Status
  company : Option String
  center : Option String
  amount : Option String
  deriving DecidableEq

/-- A vehicle record as consumed by the history and stats handlers. -/
structure VehicleR where
  id : String
  name : String
  plate : String
  createdAt : Int
  insurance : Option ComplianceItem
  inspection : Option ComplianceItem
  taxes : Option ComplianceItem
  deriving DecidableEq

/-- A document record as consumed by the history handler. -/
structure DocumentR where
  id : String
  vehicleId : String
  name : String
  createdAt : Int
  dtype : Option String
  deriving DecidableEq

/-- Event kinds of the history feed. -/
inductive HType where
  | vehicle
  | insurance
  | inspection
  | taxes
  | document
  deriving DecidableEq

/-- One entry of the history feed. -/
structure HistoryItem where
  id : String
  date : Int
  htype : HType
  title : String
  description : String
  vehicleId : String
  vehicleName : String
  vehiclePlate : String
  status : Option Status
  amount : Option String
  deriving DecidableEq

/-- JS `x || d` for an optional string: the default replaces both a missing
and an empty (falsy) string. -/
def orDefault (s : Option String) (d : String) : String :=
  match s with
  | some v => if v = "" then d else v
  | none => d

/-- Events the history handler pushes for one vehicle: the creation event,
then one event per compliance item with a non-empty date, in the fixed
order insurance, inspection, taxes. -/
def vehicleEvents (v : VehicleR) : List HistoryItem :=
  [⟨"vehicle_" ++ v.id, v.createdAt, .vehicle, "Viatura Adicionada",
      v.name ++ " (" ++ v.plate ++ ")", v.id, v.name, v.plate, none, none⟩]
  ++ (match v.insurance with
      | some i =>
        match i.date with
        | some t =>
          [⟨"insurance_" ++ v.id, t, .insurance, "Seguro",
              orDefault i.company "Renovação de seguro", v.id, v.name, v.plate,
              i.status, none⟩]
        | none => []
      | none => [])
  ++ (match v.inspection with
      | some i =>
        match i.date with
        | some t =>
          [⟨"inspection_" ++ v.id, t, .inspection, "Inspeção",
              orDefault i.center "Inspeção técnica", v.id, v.name, v.plate,
              i.status, none⟩]
        | none => []
      | none => [])
  ++ (match v.taxes with
      | some i =>
        match i.date with
        | some t =>
          [⟨"taxes_" ++ v.id, t, .taxes, "Impostos/Taxas",
              "Pagamento de impostos", v.id, v.name, v.plate,
              i.status, i.amount⟩]
        | none => []
      | none => [])

/-- Event the history handler pushes for one document, annotated with the
parent vehicle looked up by id (generic placeholder when missing). -/
def docEvent (vehicles : List VehicleR) (d : DocumentR) : HistoryItem :=
  let v := vehicles.find? (fun w => w.id == d.vehicleId)
  ⟨"document_" ++ d.id, d.createdAt, .document, "Documento Adicionado",
    d.name, d.vehicleId, orDefault (v.map (fun w => w.name)) "Viatura",
    orDefault (v.map (fun w => w.plate)) "", none, none⟩

/-- The unsorted history feed, in push order: all vehicle events in scan
order, then all document events in scan order. -/
def rawHistory (vehicles : List VehicleR) (documents : List DocumentR) :
    List HistoryItem :=
  (vehicles.map vehicleEvents).flatten ++ documents.map (docEvent vehicles)

/-- Insert an event into a descending-by-date list, after every event with
a strictly greater date and before the rest (so an equal-dated event
already in the list keeps its earlier place). -/
def insertByDate (x : HistoryItem) : List HistoryItem → List HistoryItem
  | [] => [x]
  | y :: ys => if x.date < y.date then y :: insertByDate x ys else x :: y :: ys

/-- Stable sort by event date, newest first — the behaviour of the
handler's `historyItems.sort((a, b) => new Date(b.date) - new Date(a.date))`
(`Array.prototype.sort` is stable). -/
def sortByDateDesc : List HistoryItem → List HistoryItem
  | [] => []
  | x :: xs => insertByDate x (sortByDateDesc xs)

/-- The history feed returned by `GET /history`. -/
def buildHistory (vehicles : List VehicleR) (documents : List DocumentR) :
    List HistoryItem :=
  sortByDateDesc (rawHistory vehicles documents)

/-- The counters returned by `GET /stats`. -/
structure Stats where
  totalVehicles : Nat
  totalDocuments : Nat
  expiredItems : Nat
  expiringItems : Nat
  validItems : Nat
  deriving DecidableEq

/-- One iteration of the stats tally over `[vehicle.insurance,
vehicle.inspection, vehicle.taxes]`. -/
def tallyItem (s : Stats) (item : Option ComplianceItem) : Stats :=
  match item with
  | none => s
  | some i =>
    match i.status with
    | some .expired => { s with expiredItems := s.expiredItems + 1 }
    | some .warning => { s with expiringItems := s.expiringItems + 1 }
    | some .valid => { s with validItems := s.validItems + 1 }
    | none => s

/-- Tally of one vehicle's three compliance items. -/
def tallyVehicle (s : Stats) (v : VehicleR) : Stats :=
  [v.insurance, v.inspection, v.taxes].foldl tallyItem s

/-- The stats computed by `GET /stats` from the caller's scanned vehicles
and documents. -/
def computeStats (vehicles : List VehicleR) (documents : List DocumentR) :
    Stats :=
  vehicles.foldl tallyVehicle ⟨vehicles.length, documents.length, 0, 0, 0⟩

/-- Number of the three slots an item fills for `target` (0 or 1). -/
def itemCount (target : Status) (item : Option ComplianceItem) : Nat :=
  match item with
  | some i => if i.status = some target then 1 else 0
  | none => 0

/-- A vehicle's contribution to the counter of `target`. -/
def vehicleCount (target : Status) (v : VehicleR) : Nat :=
  itemCount target v.insurance + itemCount target v.inspection +
    itemCount target v.taxes

/-- User ids issued by the identity provider are UUID-shaped and in
particular contain no underscore; the key-layout isolation argument rests
on this shape. -/
abbrev noUnderscore (s : String) : Prop := '_' ∉ s.data

/-- Status field of the compliance object stored under `field` in a
persisted record, if any. -/
def complianceStatus (r : List (String × Val)) (field : String) : Option Val :=
  match objGet r field with
  | some (.vobj fs) => objGet fs "status"
  | _ => none

/-- The `POST /vehicles` payload of the specification scenario. -/
def civicPayload : List (String × Val) :=
  [("name", .vstr "Civic"), ("plate", .vstr "AA-11-BB"), ("make", .vstr "Honda"),
    ("model", .vstr "Civic"), ("year", .vstr "2022"),
    ("insurance", .vobj [("date", .vstr "2020-01-01")]),
    ("inspection", .vobj [("date", .vstr "2030-01-01")]),
    ("taxes", .vobj [("date", .vstr "")])]

/-- The record `POST /vehicles` persists for the scenario payload. -/
def civicRecord : List (String × Val) :=
  vehicleRecord "user-1" "veh-1" "2025-06-01T00:00:00.000Z" civicPayload

/-- A concrete identity adapter for evaluations: one valid session token. -/
def authTok1 : String → Option String :=
  fun t => if t = "token-1" then some "user-1" else none

/-- Modelled from the spec: blob-store upload-if-absent (reject on
conflict, otherwise record the path). -/
def blobUpIfAbsent : String → List String → Option (List String) :=
  fun p bs => if p ∈ bs then none else some (p :: bs)

/-- A concrete signed-URL issuer for evaluations. -/
def signWith : String → Option String :=
  fun p => some ("signed:" ++ p)

/-- Result of the effective upload handler on a store that contains NO
vehicle record at all. -/
def uploadNoVehicleRes : HRes :=
  uploadDocumentH (some "token-1") "anon-key" authTok1 "veh-x" "doc-1"
    "2025-06-01T00:00:00.000Z" (some ⟨"invoice.pdf", "application/pdf", 3⟩)
    [("type", .vstr "insurance"), ("name", .vstr "Apólice")]
    blobUpIfAbsent signWith ⟨[], []⟩

/-- History scenario: a vehicle created at time 100 whose insurance expires
at time 50 (its other items have no date). -/
def scenVehicle : VehicleR :=
  ⟨"v1", "Civic", "AA-11-BB", 100,
    some ⟨some 50, some .expired, none, none, none⟩, none, none⟩

/-- History scenario: a document created at time 200 for that vehicle. -/
def scenDocument : DocumentR :=
  ⟨"d1", "v1", "Fatura", 200, none⟩

/-- Stats scenario: a vehicle with exactly one expired item, the other two
valid. -/
def statVehicle1 : VehicleR :=
  ⟨"v1", "Civic", "AA-11-BB", 0,
    some ⟨some 10, some .expired, none, none, none⟩,
    some ⟨some 20, some .valid, none, none, none⟩,
    some ⟨some 30, some .valid, none, none, none⟩⟩

/-- Stats scenario: a second such vehicle (the expired item in another
slot). -/
def statVehicle2 : VehicleR :=
  ⟨"v2", "Corolla", "BB-22-CC", 0,
    some ⟨some 10, some .valid, none, none, none⟩,
    some ⟨some 20, some .valid, none, none, none⟩,
    some ⟨some 30, some .expired, none, none, none⟩⟩

/-- An identity adapter that accepts no token (for closed evaluations). -/
def noAuth : String → Option String := fun _ => none

/-- A blob store whose writes always fail (for closed evaluations). -/
def noBlob : String → List String → Option (List String) := fun _ _ => none

/-- Concrete store for the update-vehicle evaluation: one vehicle of
`user-1`. -/
def oneVehicleSt : St :=
  ⟨[(vehicleKey "user-1" "v1", .vobj [("name", .vstr "Old"), ("plate", .vstr "AA-00-AA")])], []⟩

/-- Reading after a property write: the written key returns the new value,
every other key is untouched. -/
theorem objGet_objSet (o : List (String × Val)) (k : String) (v : Val)
    (k' : String) :
    objGet (objSet o k v) k' = if k = k' then some v else objGet o k' := by
  induction o with
  | nil => simp [objSet, objGet]
  | cons e rest ih =>
    by_cases he : e.1 = k
    · by_cases hk : k = k' <;> simp [objSet, objGet, he, hk]
    · by_cases hek : e.1 = k'
      · have hkk : ¬(k = k') := fun h => he (hek.trans h.symm)
        have hkk2 : ¬(k' = k) := fun h => he (hek.trans h)
        simp [objSet, objGet, he, hek, hkk, hkk2]
      · simp [objSet, objGet, he, hek, ih]

/-- Reading after a spread: the last binding of the spread payload wins,
otherwise the base object shows through. -/
theorem objGet_spreadAll (payload : List (String × Val)) :
    ∀ (base : List (String × Val)) (k : String),
    objGet (spreadAll base payload) k =
      match lookupLast payload k with
      | some v => some v
      | none => objGet base k := by
  induction payload with
  | nil => intro base k; simp [spreadAll, lookupLast]
  | cons e rest ih =>
    intro base k
    have h1 : spreadAll base (e :: rest) = spreadAll (objSet base e.1 e.2) rest := rfl
    rw [h1, ih]
    cases hll : lookupLast rest k with
    | some v => simp [lookupLast, hll]
    | none =>
      by_cases hek : e.1 = k <;> simp [lookupLast, hll, objGet_objSet, hek]

/-- Reading the record store after an upsert. -/
theorem kvGet_kvSet (st : List (String × Val)) (k : String) (v : Val)
    (k' : String) :
    kvGet k' (kvSet k v st) = if k = k' then some v else kvGet k' st := by
  induction st with
  | nil => simp [kvSet, kvGet]
  | cons e rest ih =>
    by_cases he : e.1 = k
    · by_cases hk : k = k' <;> simp [kvSet, kvGet, he, hk]
    · by_cases hek : e.1 = k'
      · have hkk : ¬(k = k') := fun h => he (hek.trans h.symm)
        have hkk2 : ¬(k' = k) := fun h => he (hek.trans h)
        simp [kvSet, kvGet, he, hek, hkk, hkk2]
      · simp [kvSet, kvGet, he, hek, ih]

/-- Scan over a cons cell. -/
theorem getByPre_cons (p : String) (e : String × Val) (l : List (String × Val)) :
    getByPre p (e :: l) =
      if strStarts p e.1 then e.2 :: getByPre p l else getByPre p l := by
  simp only [getByPre, List.filter_cons]
  by_cases h : strStarts p e.1 <;> simp [h]

/-- An upsert under a key outside the scanned range leaves the scan result
unchanged. -/
theorem getByPre_kvSet_miss (p k : String) (v : Val)
    (h : strStarts p k = false) :
    ∀ st, getByPre p (kvSet k v st) = getByPre p st := by
  intro st
  induction st with
  | nil => simp [kvSet, getByPre, h]
  | cons e rest ih =>
    by_cases he : e.1 = k
    · rw [show kvSet k v (e :: rest) = (k, v) :: rest from by simp [kvSet, he]]
      rw [getByPre_cons, getByPre_cons, he, h]
      simp
    · rw [show kvSet k v (e :: rest) = e :: kvSet k v rest from by simp [kvSet, he]]
      rw [getByPre_cons, getByPre_cons, ih]

/-- A common leading run cancels on both sides of a `startsList` test. -/
theorem startsList_append_cancel (pre : List Char) (a b : List Char) :
    startsList (pre ++ a) (pre ++ b) = startsList a b := by
  induction pre with
  | nil => rfl
  | cons c cs ih => simp [startsList, ih]

/-- Two underscore-free segments followed by an underscore separator can
only match as key layouts when the segments are equal. -/
theorem startsList_seg :
    ∀ (lb la r s : List Char), '_' ∉ la → '_' ∉ lb →
      startsList (lb ++ '_' :: r) (la ++ '_' :: s) = true → la = lb := by
  intro lb
  induction lb with
  | nil =>
    intro la r s hA _ h
    cases la with
    | nil => rfl
    | cons a as =>
      simp only [List.nil_append, List.cons_append, startsList] at h
      by_cases hc : '_' = a
      · apply absurd _ hA
        rw [← hc]
        exact List.mem_cons_self '_' as
      · rw [if_neg hc] at h
        exact absurd h (by simp)
  | cons b bs ih =>
    intro la r s hA hB h
    cases la with
    | nil =>
      simp only [List.nil_append, List.cons_append, startsList] at h
      by_cases hc : b = '_'
      · apply absurd _ hB
        rw [← hc]
        exact List.mem_cons_self b bs
      · rw [if_neg hc] at h
        exact absurd h (by simp)
    | cons a as =>
      simp only [List.cons_append, startsList] at h
      by_cases hc : b = a
      · rw [if_pos hc] at h
        have has : as = bs :=
          ih as r s (fun hm => hA (List.mem_cons_of_mem a hm))
            (fun hm => hB (List.mem_cons_of_mem b hm)) h
        rw [hc, has]
      · rw [if_neg hc] at h
        exact absurd h (by simp)

/-- A vehicle key of user `A` never falls in the scanned key range of a
distinct user `B` (user ids are underscore-free). -/
theorem strStarts_vehicle_miss (A B vid : String) (hA : noUnderscore A)
    (hB : noUnderscore B) (hne : A ≠ B) :
    strStarts (vehiclePre B) (vehicleKey A vid) = false := by
  cases hx : strStarts (vehiclePre B) (vehicleKey A vid) with
  | false => rfl
  | true =>
    exfalso
    have h1 : (vehiclePre B).data =
        "vehicle_".data ++ (B.data ++ '_' :: ([] : List Char)) := by
      simp [vehiclePre, String.data_append, List.append_assoc]
    have h2 : (vehicleKey A vid).data =
        "vehicle_".data ++ (A.data ++ '_' :: vid.data) := by
      simp [vehicleKey, vehiclePre, String.data_append, List.append_assoc]
    rw [show strStarts (vehiclePre B) (vehicleKey A vid) =
        startsList (vehiclePre B).data (vehicleKey A vid).data from rfl,
      h1, h2, startsList_append_cancel] at hx
    exact hne (String.ext (startsList_seg B.data A.data _ _ hA hB hx))

/-- A document key of user `A` never falls in the scanned document key
range of a distinct user `B` (user ids are underscore-free). -/
theorem strStarts_doc_miss (A B vid vid2 did : String) (hA : noUnderscore A)
    (hB : noUnderscore B) (hne : A ≠ B) :
    strStarts (docPre B vid2) (docKey A vid did) = false := by
  cases hx : strStarts (docPre B vid2) (docKey A vid did) with
  | false => rfl
  | true =>
    exfalso
    have h1 : (docPre B vid2).data =
        "document_".data ++ (B.data ++ '_' :: (vid2.data ++ ['_'])) := by
      simp [docPre, String.data_append, List.append_assoc]
    have h2 : (docKey A vid did).data =
        "document_".data ++ (A.data ++ '_' :: (vid.data ++ '_' :: did.data)) := by
      simp [docKey, docPre, String.data_append, List.append_assoc]
    rw [show strStarts (docPre B vid2) (docKey A vid did) =
        startsList (docPre B vid2).data (docKey A vid did).data from rfl,
      h1, h2, startsList_append_cancel] at hx
    exact hne (String.ext (startsList_seg B.data A.data _ _ hA hB hx))

/-- Membership in an insertion. -/
theorem mem_insertByDate (x z : HistoryItem) :
    ∀ l, z ∈ insertByDate x l ↔ z = x ∨ z ∈ l := by
  intro l
  induction l with
  | nil => simp [insertByDate]
  | cons y ys ih =>
    by_cases hc : x.date < y.date
    · simp [insertByDate, hc, ih]
      tauto
    · simp [insertByDate, hc]

/-- Insertion preserves the descending-by-date invariant. -/
theorem pairwise_insertByDate (x : HistoryItem) :
    ∀ l, List.Pairwise (fun a b => b.date ≤ a.date) l →
      List.Pairwise (fun a b => b.date ≤ a.date) (insertByDate x l) := by
  intro l
  induction l with
  | nil => intro _; simp [insertByDate]
  | cons y ys ih =>
    intro h
    rcases List.pairwise_cons.mp h with ⟨hy, hys⟩
    by_cases hc : x.date < y.date
    · rw [show insertByDate x (y :: ys) = y :: insertByDate x ys from by
        simp [insertByDate, hc]]
      refine List.pairwise_cons.mpr ⟨?_, ih hys⟩
      intro z hz
      rcases (mem_insertByDate x z ys).mp hz with hzx | hzy
      · exact hzx ▸ le_of_lt hc
      · exact hy z hzy
    · rw [show insertByDate x (y :: ys) = x :: y :: ys from by
        simp [insertByDate, hc]]
      refine List.pairwise_cons.mpr ⟨?_, h⟩
      intro z hz
      rcases List.mem_cons.mp hz with hzy | hzs
      · exact hzy ▸ not_lt.mp hc
      · exact le_trans (hy z hzs) (not_lt.mp hc)

/-- The sorted feed is descending by date. -/
theorem pairwise_sortByDateDesc :
    ∀ l, List.Pairwise (fun a b => b.date ≤ a.date) (sortByDateDesc l) := by
  intro l
  induction l with
  | nil => simp [sortByDateDesc]
  | cons x xs ih => exact pairwise_insertByDate x (sortByDateDesc xs) ih

/-- Insertion keeps the sequence of equal-dated events intact: the inserted
event lands in front of exactly the events of its own date. -/
theorem filter_insertByDate (d : Int) (x : HistoryItem) :
    ∀ l, (insertByDate x l).filter (fun e => e.date == d) =
      if x.date = d then x :: l.filter (fun e => e.date == d)
      else l.filter (fun e => e.date == d) := by
  intro l
  induction l with
  | nil =>
    by_cases h : x.date = d <;>
      simp [insertByDate, List.filter_cons, List.filter_nil, h]
  | cons y ys ih =>
    by_cases hc : x.date < y.date
    · rw [show insertByDate x (y :: ys) = y :: insertByDate x ys from by
        simp [insertByDate, hc]]
      by_cases hx : x.date = d
      · have hy : (y.date == d) = false := by
          simp only [beq_eq_false_iff_ne, ne_eq]
          omega
        simp [List.filter_cons, hy, ih, hx]
      · by_cases hyd : y.date = d <;> simp [List.filter_cons, hyd, ih, hx]
    · rw [show insertByDate x (y :: ys) = x :: y :: ys from by
        simp [insertByDate, hc]]
      by_cases hx : x.date = d <;> simp [List.filter_cons, hx]

/-- Stability of the sort: the subsequence of events of any fixed date is
exactly the one of the unsorted feed (ties keep their push order). -/
theorem filter_sortByDateDesc (d : Int) :
    ∀ l, (sortByDateDesc l).filter (fun e => e.date == d) =
      l.filter (fun e => e.date == d) := by
  intro l
  induction l with
  | nil => simp [sortByDateDesc]
  | cons x xs ih =>
    rw [show sortByDateDesc (x :: xs) = insertByDate x (sortByDateDesc xs) from rfl,
      filter_insertByDate]
    by_cases hx : x.date = d <;> simp [List.filter_cons, hx, ih]

/-- Field-wise effect of one tally step. -/
theorem tallyItem_fields (s : Stats) (i : Option ComplianceItem) :
    (tallyItem s i).expiredItems = s.expiredItems + itemCount .expired i ∧
    (tallyItem s i).expiringItems = s.expiringItems + itemCount .warning i ∧
    (tallyItem s i).validItems = s.validItems + itemCount .valid i ∧
    (tallyItem s i).totalVehicles = s.totalVehicles ∧
    (tallyItem s i).totalDocuments = s.totalDocuments := by
  cases i with
  | none => simp [tallyItem, itemCount]
  | some ci =>
    cases hst : ci.status with
    | none => simp [tallyItem, itemCount, hst]
    | some st => cases st <;> simp [tallyItem, itemCount, hst]

/-- Field-wise effect of tallying one vehicle's three items. -/
theorem tallyVehicle_fields (s : Stats) (v : VehicleR) :
    (tallyVehicle s v).expiredItems = s.expiredItems + vehicleCount .expired v ∧
    (tallyVehicle s v).expiringItems = s.expiringItems + vehicleCount .warning v ∧
    (tallyVehicle s v).validItems = s.validItems + vehicleCount .valid v ∧
    (tallyVehicle s v).totalVehicles = s.totalVehicles ∧
    (tallyVehicle s v).totalDocuments = s.totalDocuments := by
  have hv : tallyVehicle s v =
      tallyItem (tallyItem (tallyItem s v.insurance) v.inspection) v.taxes := rfl
  obtain ⟨a1, a2, a3, a4, a5⟩ := tallyItem_fields s v.insurance
  obtain ⟨b1, b2, b3, b4, b5⟩ :=
    tallyItem_fields (tallyItem s v.insurance) v.inspection
  obtain ⟨c1, c2, c3, c4, c5⟩ :=
    tallyItem_fields (tallyItem (tallyItem s v.insurance) v.inspection) v.taxes
  refine ⟨?_, ?_, ?_, ?_, ?_⟩ <;> rw [hv] <;> (try simp only [vehicleCount]) <;>
    omega

/-- Field-wise value of the tally fold. -/
theorem foldl_tallyVehicle (vs : List VehicleR) :
    ∀ s : Stats,
    (vs.foldl tallyVehicle s).expiredItems =
      s.expiredItems + (vs.map (vehicleCount .expired)).sum ∧
    (vs.foldl tallyVehicle s).expiringItems =
      s.expiringItems + (vs.map (vehicleCount .warning)).sum ∧
    (vs.foldl tallyVehicle s).validItems =
      s.validItems + (vs.map (vehicleCount .valid)).sum ∧
    (vs.foldl tallyVehicle s).totalVehicles = s.totalVehicles ∧
    (vs.foldl tallyVehicle s).totalDocuments = s.totalDocuments := by
  induction vs with
  | nil => intro s; simp
  | cons v rest ih =>
    intro s
    have hf : (v :: rest).foldl tallyVehicle s =
        rest.foldl tallyVehicle (tallyVehicle s v) := rfl
    obtain ⟨i1, i2, i3, i4, i5⟩ := ih (tallyVehicle s v)
    obtain ⟨t1, t2, t3, t4, t5⟩ := tallyVehicle_fields s v
    refine ⟨?_, ?_, ?_, ?_, ?_⟩ <;> rw [hf] <;>
      simp [List.map_cons, List.sum_cons, i1, i2, i3, i4, i5] <;> omega

/-- The three per-status slots of one item are mutually exclusive. -/
theorem itemCount_partition (i : Option ComplianceItem) :
    itemCount .expired i + itemCount .warning i + itemCount .valid i ≤ 1 := by
  cases i with
  | none => simp [itemCount]
  | some ci =>
    cases hst : ci.status with
    | none => simp [itemCount, hst]
    | some st => cases st <;> simp [itemCount, hst]

/-- C3: `getStatusFromDate` is a pure total function on date values: the
empty date gives `expired`; every date strictly in the past gives
`expired`; every date within the forward-looking two-month grace window
gives `warning`; every date at or beyond the window gives `valid`. -/
theorem getStatusFromDate_cases (t now : Int) :
    getStatusFromDate none now = .expired ∧
    (t < now → getStatusFromDate (some t) now = .expired) ∧
    (now ≤ t → t - now < 2 * monthMs → getStatusFromDate (some t) now = .warning) ∧
    (2 * monthMs ≤ t - now → getStatusFromDate (some t) now = .valid) := by
  have hm : (0 : Int) < monthMs := by norm_num [monthMs]
  refine ⟨rfl, fun h => ?_, fun h1 h2 => ?_, fun h => ?_⟩
  · simp only [getStatusFromDate]
    rw [if_pos (by omega)]
  · simp only [getStatusFromDate]
    rw [if_neg (by omega), if_pos h2]
  · simp only [getStatusFromDate]
    rw [if_neg (by omega), if_neg (by omega)]

/-- Concrete evaluation of `getStatusFromDate_cases` at one date of each
regime. -/
theorem getStatusFromDate_cases_witness :
    ((-1 : Int) < 0) ∧ getStatusFromDate (some (-1)) 0 = .expired ∧
    ((0 : Int) ≤ 0) ∧ ((0 : Int) - 0 < 2 * monthMs) ∧
    getStatusFromDate (some 0) 0 = .warning ∧
    (2 * monthMs ≤ (5184000000 : Int) - 0) ∧
    getStatusFromDate (some 5184000000) 0 = .valid :=
  ⟨by norm_num,
   (getStatusFromDate_cases (-1) 0).2.1 (by norm_num),
   le_refl 0,
   by norm_num [monthMs],
   (getStatusFromDate_cases 0 0).2.2.1 (le_refl 0) (by norm_num [monthMs]),
   by norm_num [monthMs],
   (getStatusFromDate_cases 5184000000 0).2.2.2 (by norm_num [monthMs])⟩

/-- C9: the stats counters tally every vehicle's three compliance items —
each counter is the sum over vehicles of that vehicle's per-item matches,
one vehicle contributes at most 3 across the three counters, and the
two-vehicle scenario yields 2 expired and 4 valid items. -/
theorem computeStats_counts :
    (∀ (vs : List VehicleR) (ds : List DocumentR),
      (computeStats vs ds).expiredItems = (vs.map (vehicleCount .expired)).sum ∧
      (computeStats vs ds).expiringItems = (vs.map (vehicleCount .warning)).sum ∧
      (computeStats vs ds).validItems = (vs.map (vehicleCount .valid)).sum ∧
      (computeStats vs ds).totalVehicles = vs.length ∧
      (computeStats vs ds).totalDocuments = ds.length) ∧
    (∀ v : VehicleR,
      vehicleCount .expired v + vehicleCount .warning v +
        vehicleCount .valid v ≤ 3) ∧
    computeStats [statVehicle1, statVehicle2] [] = ⟨2, 0, 2, 0, 4⟩ := by
  refine ⟨fun vs ds => ?_, fun v => ?_, by decide⟩
  · obtain ⟨f1, f2, f3, f4, f5⟩ :=
      foldl_tallyVehicle vs ⟨vs.length, ds.length, 0, 0, 0⟩
    exact ⟨by simpa [computeStats] using f1, by simpa [computeStats] using f2,
      by simpa [computeStats] using f3, by simpa [computeStats] using f4,
      by simpa [computeStats] using f5⟩
  · have p1 := itemCount_partition v.insurance
    have p2 := itemCount_partition v.inspection
    have p3 := itemCount_partition v.taxes
    simp only [vehicleCount]
    omega

/-- C8: the history feed is sorted by event date descending; ties keep
their push (insertion) order, stated as: the subsequence of any fixed date
is that of the unsorted feed; and the concrete scenario — vehicle created
at 100 with insurance date 50, document created at 200 — comes back
ordered [200, 100, 50] as [document, vehicle, insurance]. -/
theorem buildHistory_ordered :
    (∀ (vs : List VehicleR) (ds : List DocumentR),
      List.Pairwise (fun a b => b.date ≤ a.date) (buildHistory vs ds)) ∧
    (∀ (vs : List VehicleR) (ds : List DocumentR) (d : Int),
      (buildHistory vs ds).filter (fun e => e.date == d) =
        (rawHistory vs ds).filter (fun e => e.date == d)) ∧
    (buildHistory [scenVehicle] [scenDocument]).map (fun e => e.date) =
      [200, 100, 50] ∧
    (buildHistory [scenVehicle] [scenDocument]).map (fun e => e.htype) =
      [.document, .vehicle, .insurance] :=
  ⟨fun _ _ => pairwise_sortByDateDesc _,
   fun _ _ d => filter_sortByDateDesc d _,
   by decide, by decide⟩

/-- C1: evaluating `POST /vehicles` at the specification scenario payload:
the handler persists the nested compliance objects exactly as the caller
sent them and stores NO `status` field at all — the statuses are not
recomputed server-side before persisting. -/
theorem createVehicle_statusesAbsent :
    objGet civicRecord "insurance" = some (.vobj [("date", .vstr "2020-01-01")]) ∧
    objGet civicRecord "inspection" = some (.vobj [("date", .vstr "2030-01-01")]) ∧
    objGet civicRecord "taxes" = some (.vobj [("date", .vstr "")]) ∧
    complianceStatus civicRecord "insurance" = none ∧
    complianceStatus civicRecord "inspection" = none ∧
    complianceStatus civicRecord "taxes" = none :=
  ⟨rfl, rfl, rfl, rfl, rfl, rfl⟩

/-- C2: the upload route the router dispatches to performs no
vehicle-ownership lookup: on a store holding no vehicle record at all it
returns 200, writes the blob and creates the document metadata record,
instead of failing with 404 before accepting the file. -/
theorem upload_acceptsWithoutVehicle :
    uploadNoVehicleRes.status = 200 ∧
    uploadNoVehicleRes.st.blobs = ["user-1/veh-x/doc-1.pdf"] ∧
    (kvGet (docKey "user-1" "veh-x" "doc-1") uploadNoVehicleRes.st.kv).isSome = true ∧
    kvGet (vehicleKey "user-1" "veh-x") ([] : List (String × Val)) = none ∧
    uploadNoVehicleRes.ops = [.blobWrite "user-1/veh-x/doc-1.pdf",
      .blobSign "user-1/veh-x/doc-1.pdf", .set (docKey "user-1" "veh-x" "doc-1")] :=
  ⟨rfl, rfl, rfl, rfl, rfl⟩

/-- C4: upload atomicity — when the blob-store write fails, the handler
answers 500 having performed only the failed blob write: the record store
is untouched and the document listing for the vehicle is unchanged. -/
theorem upload_noPartialWrite
    (anonKey : String) (auth : String → Option String)
    (tk uid vid did now : String) (f : FileInfo)
    (dd : List (String × Val))
    (blobUp : String → List String → Option (List String))
    (sign : String → Option String) (st : St)
    (htk : tk ≠ anonKey) (hauth : auth tk = some uid)
    (hb : blobUp (uploadPath uid vid did f.name) st.blobs = none) :
    uploadDocumentH (some tk) anonKey auth vid did now (some f) dd blobUp sign st =
      ⟨500, st, [.blobWrite (uploadPath uid vid did f.name)]⟩ ∧
    listDocumentsFn uid vid
      (uploadDocumentH (some tk) anonKey auth vid did now (some f) dd blobUp sign st).st.kv =
      listDocumentsFn uid vid st.kv := by
  have h1 : uploadDocumentH (some tk) anonKey auth vid did now (some f) dd blobUp sign st =
      ⟨500, st, [.blobWrite (uploadPath uid vid did f.name)]⟩ := by
    simp [uploadDocumentH, guardAuth, htk, hauth, hb]
  exact ⟨h1, by rw [h1]⟩

/-- Concrete evaluation of `upload_noPartialWrite` against an
always-failing blob store. -/
theorem upload_noPartialWrite_witness :
    ("token-1" : String) ≠ "anon-key" ∧ authTok1 "token-1" = some "user-1" ∧
    noBlob (uploadPath "user-1" "v1" "d1" "a.pdf") ([] : List String) = none ∧
    uploadDocumentH (some "token-1") "anon-key" authTok1 "v1" "d1" "T"
      (some ⟨"a.pdf", "application/pdf", 3⟩) [] noBlob signWith ⟨[], []⟩ =
      ⟨500, ⟨[], []⟩, [.blobWrite (uploadPath "user-1" "v1" "d1" "a.pdf")]⟩ :=
  ⟨by decide, rfl, rfl,
   (upload_noPartialWrite "anon-key" authTok1 "token-1" "user-1" "v1" "d1" "T"
     ⟨"a.pdf", "application/pdf", 3⟩ [] noBlob signWith ⟨[], []⟩
     (by decide) rfl rfl).1⟩

/-- C5: user isolation — every record created under user `A` lives under a
key carrying `A`, and the listings of a distinct user `B` scan only keys
carrying `B`, so `A`-writes (vehicle creation, metadata-only document
creation, document upload) leave every `B`-listing unchanged.  User ids
are underscore-free (UUIDs), which makes the key layout prefix-unambiguous. -/
theorem user_isolation
    (A B vid vid2 did now path : String)
    (payload docPayload dd : List (String × Val)) (url : Option String)
    (f : FileInfo) (kv : List (String × Val))
    (hA : noUnderscore A) (hB : noUnderscore B) (hne : A ≠ B) :
    listVehiclesFn B (createVehicleCore A vid now payload kv) =
      listVehiclesFn B kv ∧
    listDocumentsFn B vid2
      (kvSet (docKey A vid did)
        (.vobj (documentMetaRecord A vid did now docPayload)) kv) =
      listDocumentsFn B vid2 kv ∧
    listDocumentsFn B vid2
      (kvSet (docKey A vid did)
        (.vobj (uploadDocRecord A vid did now f path url dd)) kv) =
      listDocumentsFn B vid2 kv := by
  have hv := strStarts_vehicle_miss A B vid hA hB hne
  have hd := strStarts_doc_miss A B vid vid2 did hA hB hne
  exact ⟨getByPre_kvSet_miss _ _ _ hv kv,
    getByPre_kvSet_miss _ _ _ hd kv,
    getByPre_kvSet_miss _ _ _ hd kv⟩

/-- Concrete evaluation of `user_isolation` for two UUID-shaped ids. -/
theorem user_isolation_witness :
    noUnderscore "1a2b3c" ∧ noUnderscore "9d8e7f" ∧
    ("1a2b3c" : String) ≠ "9d8e7f" ∧
    listVehiclesFn "9d8e7f" (createVehicleCore "1a2b3c" "v1" "T" [] []) =
      listVehiclesFn "9d8e7f" [] :=
  ⟨by decide, by decide, by decide,
   (user_isolation "1a2b3c" "9d8e7f" "v1" "v2" "d1" "T" "p" [] [] [] none
     ⟨"a.pdf", "t", 1⟩ [] (by decide) (by decide) (by decide)).1⟩

/-- C6: a request whose bearer token equals the public anonymous key is
rejected with 401 by every user-scoped endpoint before any record-store or
blob-store operation; all handlers but `GET /profile` reject it by the
explicit equality test, and `GET /profile` by token verification, the
anonymous key not being a valid user session token (`auth anonKey = none`). -/
theorem anonKey_rejected
    (anonKey : String) (auth : String → Option String) (st : St)
    (vid did now : String) (payload dd : List (String × Val))
    (file : Option FileInfo)
    (blobUp : String → List String → Option (List String))
    (sign : String → Option String) (idOk : Bool)
    (h : auth anonKey = none) :
    profileGetH (some anonKey) auth st = ⟨401, st, []⟩ ∧
    listVehiclesH (some anonKey) anonKey auth st = ⟨401, st, []⟩ ∧
    createVehicleH (some anonKey) anonKey auth vid now payload st = ⟨401, st, []⟩ ∧
    updateVehicleH (some anonKey) anonKey auth vid now payload st = ⟨401, st, []⟩ ∧
    deleteVehicleH (some anonKey) anonKey auth vid st = ⟨401, st, []⟩ ∧
    listDocumentsH (some anonKey) anonKey auth vid st = ⟨401, st, []⟩ ∧
    addDocumentH (some anonKey) anonKey auth vid did now payload st = ⟨401, st, []⟩ ∧
    uploadDocumentH (some anonKey) anonKey auth vid did now file dd blobUp sign st =
      ⟨401, st, []⟩ ∧
    docUrlH (some anonKey) anonKey auth did sign st = ⟨401, st, []⟩ ∧
    profilePutH (some anonKey) anonKey auth now payload idOk st = ⟨401, st, []⟩ ∧
    historyH (some anonKey) anonKey auth st = ⟨401, st, []⟩ ∧
    statsH (some anonKey) anonKey auth st = ⟨401, st, []⟩ := by
  simp [profileGetH, listVehiclesH, createVehicleH, updateVehicleH,
    deleteVehicleH, listDocumentsH, addDocumentH, uploadDocumentH, docUrlH,
    profilePutH, historyH, statsH, guardAuth, h]

/-- Concrete evaluation of `anonKey_rejected`. -/
theorem anonKey_rejected_witness :
    noAuth "anon" = none ∧
    profileGetH (some "anon") noAuth ⟨[], []⟩ = ⟨401, ⟨[], []⟩, []⟩ ∧
    statsH (some "anon") "anon" noAuth ⟨[], []⟩ = ⟨401, ⟨[], []⟩, []⟩ :=
  ⟨rfl,
   (anonKey_rejected "anon" noAuth ⟨[], []⟩ "v" "d" "T" [] [] none noBlob
     signWith true rfl).1,
   (anonKey_rejected "anon" noAuth ⟨[], []⟩ "v" "d" "T" [] [] none noBlob
     signWith true rfl).2.2.2.2.2.2.2.2.2.2.2⟩

/-- C7: `PUT /vehicles/:vehicleId` — when no record exists under the
scoped key the handler answers 404 with the store untouched; otherwise it
persists the shallow merge of the payload onto the existing record with
`updatedAt` refreshed, every field absent from the payload (other than
`updatedAt`) keeping its prior value and every payload field taking its
payload value. -/
theorem updateVehicle_merge
    (anonKey : String) (auth : String → Option String)
    (tk uid vid now k : String) (v : Val)
    (payload old : List (String × Val)) (st : St)
    (htk : tk ≠ anonKey) (hauth : auth tk = some uid) :
    (kvGet (vehicleKey uid vid) st.kv = none →
      updateVehicleH (some tk) anonKey auth vid now payload st =
        ⟨404, st, [.get (vehicleKey uid vid)]⟩) ∧
    (kvGet (vehicleKey uid vid) st.kv = some (.vobj old) →
      updateVehicleH (some tk) anonKey auth vid now payload st =
        ⟨200,
          ⟨kvSet (vehicleKey uid vid) (.vobj (mergeVehicle old payload now)) st.kv,
            st.blobs⟩,
          [.get (vehicleKey uid vid), .set (vehicleKey uid vid)]⟩) ∧
    objGet (mergeVehicle old payload now) "updatedAt" = some (.vstr now) ∧
    (k ≠ "updatedAt" → lookupLast payload k = none →
      objGet (mergeVehicle old payload now) k = objGet old k) ∧
    (k ≠ "updatedAt" → lookupLast payload k = some v →
      objGet (mergeVehicle old payload now) k = some v) := by
  refine ⟨fun hn => ?_, fun hs => ?_, ?_, fun hk hl => ?_, fun hk hl => ?_⟩
  · simp [updateVehicleH, guardAuth, htk, hauth, hn]
  · simp [updateVehicleH, guardAuth, htk, hauth, hs, objFields]
  · simp [mergeVehicle, objGet_objSet]
  · have hk2 : ¬(("updatedAt" : String) = k) := fun hh => hk hh.symm
    rw [show mergeVehicle old payload now =
        objSet (spreadAll old payload) "updatedAt" (.vstr now) from rfl,
      objGet_objSet, if_neg hk2, objGet_spreadAll, hl]
  · have hk2 : ¬(("updatedAt" : String) = k) := fun hh => hk hh.symm
    rw [show mergeVehicle old payload now =
        objSet (spreadAll old payload) "updatedAt" (.vstr now) from rfl,
      objGet_objSet, if_neg hk2, objGet_spreadAll, hl]

/-- Concrete evaluation of `updateVehicle_merge`: a missing vehicle gives
404, and a merge keeps an omitted field. -/
theorem updateVehicle_merge_witness :
    ("token-1" : String) ≠ "anon-key" ∧ authTok1 "token-1" = some "user-1" ∧
    updateVehicleH (some "token-1") "anon-key" authTok1 "v9" "T" [] oneVehicleSt =
      ⟨404, oneVehicleSt, [.get (vehicleKey "user-1" "v9")]⟩ ∧
    objGet (mergeVehicle [("name", Val.vstr "Old"), ("plate", Val.vstr "AA-00-AA")]
        [("plate", Val.vstr "BB-11-BB")] "T") "name" =
      objGet [("name", Val.vstr "Old"), ("plate", Val.vstr "AA-00-AA")] "name" :=
  ⟨by decide, rfl,
   (updateVehicle_merge "anon-key" authTok1 "token-1" "user-1" "v9" "T" "name"
     Val.vnull [] [("name", Val.vstr "Old"), ("plate", Val.vstr "AA-00-AA")]
     oneVehicleSt (by decide) rfl).1 rfl,
   (updateVehicle_merge "anon-key" authTok1 "token-1" "user-1" "v1" "T" "name"
     Val.vnull [("plate", Val.vstr "BB-11-BB")]
     [("name", Val.vstr "Old"), ("plate", Val.vstr "AA-00-AA")]
     oneVehicleSt (by decide) rfl).2.2.2.1 (by decide) rfl⟩

/-- C10: in the created vehicle record the client payload is spread after
the server-generated `id` and authenticated `userId` but before the
timestamps: a payload `id`/`userId` binding overrides the server values
(so the record's id can differ from the id inside its storage key), while
`createdAt`/`updatedAt` always carry the server clock, and the storage key
always embeds the server-generated id and the authenticated user id. -/
theorem createVehicle_spreadOrder
    (uid vid now : String) (payload : List (String × Val)) (v : Val)
    (kv : List (String × Val)) :
    (lookupLast payload "id" = some v →
      objGet (vehicleRecord uid vid now payload) "id" = some v) ∧
    (lookupLast payload "userId" = some v →
      objGet (vehicleRecord uid vid now payload) "userId" = some v) ∧
    (lookupLast payload "id" = none →
      objGet (vehicleRecord uid vid now payload) "id" = some (.vstr vid)) ∧
    (lookupLast payload "userId" = none →
      objGet (vehicleRecord uid vid now payload) "userId" = some (.vstr uid)) ∧
    objGet (vehicleRecord uid vid now payload) "createdAt" = some (.vstr now) ∧
    objGet (vehicleRecord uid vid now payload) "updatedAt" = some (.vstr now) ∧
    createVehicleCore uid vid now payload kv =
      kvSet (vehicleKey uid vid) (.vobj (vehicleRecord uid vid now payload)) kv := by
  have hrec : vehicleRecord uid vid now payload =
      objSet
        (objSet
          (spreadAll (objSet (objSet [] "id" (.vstr vid)) "userId" (.vstr uid)) payload)
          "createdAt" (.vstr now))
        "updatedAt" (.vstr now) := rfl
  refine ⟨fun hl => ?_, fun hl => ?_, fun hl => ?_, fun hl => ?_, ?_, ?_, rfl⟩
  · rw [hrec, objGet_objSet, if_neg (by decide), objGet_objSet,
      if_neg (by decide), objGet_spreadAll, hl]
  · rw [hrec, objGet_objSet, if_neg (by decide), objGet_objSet,
      if_neg (by decide), objGet_spreadAll, hl]
  · rw [hrec, objGet_objSet, if_neg (by decide), objGet_objSet,
      if_neg (by decide), objGet_spreadAll, hl]
    rfl
  · rw [hrec, objGet_objSet, if_neg (by decide), objGet_objSet,
      if_neg (by decide), objGet_spreadAll, hl]
    rfl
  · rw [hrec, objGet_objSet, if_neg (by decide), objGet_objSet, if_pos rfl]
  · rw [hrec, objGet_objSet, if_pos rfl]

/-- Concrete evaluation of `createVehicle_spreadOrder` on a payload that
smuggles its own `id`. -/
theorem createVehicle_spreadOrder_witness :
    lookupLast [("id", Val.vstr "spoofed"), ("userId", Val.vstr "intruder")] "id" =
      some (Val.vstr "spoofed") ∧
    objGet (vehicleRecord "user-1" "srv-id" "T"
        [("id", Val.vstr "spoofed"), ("userId", Val.vstr "intruder")]) "id" =
      some (Val.vstr "spoofed") ∧
    objGet (vehicleRecord "user-1" "srv-id" "T"
        [("id", Val.vstr "spoofed"), ("userId", Val.vstr "intruder")]) "createdAt" =
      some (Val.vstr "T") :=
  ⟨rfl,
   (createVehicle_spreadOrder "user-1" "srv-id" "T"
     [("id", Val.vstr "spoofed"), ("userId", Val.vstr "intruder")]
     (Val.vstr "spoofed") []).1 rfl,
   (createVehicle_spreadOrder "user-1" "srv-id" "T"
     [("id", Val.vstr "spoofed"), ("userId", Val.vstr "intruder")]
     (Val.vstr "spoofed") []).2.2.2.2.1⟩
